import Mathlib

set_option maxHeartbeats 2000000
set_option maxRecDepth 8000

/-!
Shallow embedding of the complexity-analyzer engine from `src/wasm/src/lib.rs`.

Strings are modelled with Lean `String` (a list of characters).  Rust indexes
strings by UTF-8 byte positions; every index computed by the source on the
inputs of interest is a position inside ASCII text, where byte positions and
character positions coincide, so positions are modelled as character indices,
while `str::len` is modelled faithfully as the UTF-8 byte count (`rustLen`).
Floating point confidences only ever hold one of the literals
0.9, 0.85, 0.8, 0.7, 0.6 or a `min` of two of them, all exactly representable
and ordered identically in `f64` and in `ℚ`, so confidence is modelled as `ℚ`.
-/

namespace BigO

/- ### Characters that are awkward inside Lean literals -/

def lbraceChar : Char := Char.ofNat 123

def rbraceChar : Char := Char.ofNat 125

/- ### Primitive Rust string operations -/

/-- Rust `char::is_whitespace` restricted to the ASCII whitespace characters
(the only ones the analyzer's inputs contain). -/
def isWspChar (c : Char) : Bool :=
  c = ' ' || c = '\t' || c = '\n' || c = '\r'

/-- Rust `str::trim_start`. -/
def trimStartStr (s : String) : String :=
  String.mk (s.data.dropWhile isWspChar)

/-- Rust `str::trim_end`. -/
def trimEndStr (s : String) : String :=
  String.mk ((s.data.reverse.dropWhile isWspChar).reverse)

/-- Rust `str::trim`. -/
def trimStr (s : String) : String :=
  trimEndStr (trimStartStr s)

/-- Rust `str::starts_with`. -/
def rsStartsWith (s p : String) : Bool :=
  p.data.isPrefixOf s.data

/-- Rust `str::ends_with`. -/
def rsEndsWith (s p : String) : Bool :=
  p.data.isSuffixOf s.data

/-- UTF-8 byte width of one character. -/
def charUtf8Size (c : Char) : Nat :=
  if c.toNat < 128 then 1 else if c.toNat < 2048 then 2 else if c.toNat < 65536 then 3 else 4

/-- UTF-8 byte length of a character list. -/
def utf8Len : List Char → Nat
  | [] => 0
  | c :: rest => charUtf8Size c + utf8Len rest

/-- Rust `str::len` (UTF-8 byte count). -/
def rustLen (s : String) : Nat :=
  utf8Len s.data

/-- Helper for `strContains`: does `pat` occur as a contiguous run inside the list? -/
def strContainsGo (pat : List Char) : List Char → Bool
  | [] => pat.isEmpty
  | c :: rest => pat.isPrefixOf (c :: rest) || strContainsGo pat rest

/-- Rust `str::contains` with a string pattern. -/
def strContains (s pat : String) : Bool :=
  strContainsGo pat.data s.data

/-- Rust `str::contains` with a char pattern. -/
def strContainsChar (s : String) (c : Char) : Bool :=
  s.data.contains c

/-- Helper for `countOccs`: counts non-overlapping occurrences, `skip` characters
being still covered by the previous match. -/
def countOccsGo (pat : List Char) : List Char → Nat → Nat
  | [], _ => 0
  | c :: rest, skip =>
    match skip with
    | k + 1 => countOccsGo pat rest k
    | 0 =>
      if pat.isPrefixOf (c :: rest) then 1 + countOccsGo pat rest (pat.length - 1)
      else countOccsGo pat rest 0

/-- Rust `str::matches(pat).count()`: number of non-overlapping occurrences,
scanning from the left. -/
def countOccs (s pat : String) : Nat :=
  countOccsGo pat.data s.data 0

/-- Rust `str::matches(char).count()`. -/
def countChar (s : String) (c : Char) : Nat :=
  s.data.count c

/-- Helper for `findSubstrIdx`. -/
def findSubstrIdxGo (pat : List Char) : List Char → Nat → Option Nat
  | [], i => if pat.isEmpty then some i else none
  | c :: rest, i =>
    if pat.isPrefixOf (c :: rest) then some i else findSubstrIdxGo pat rest (i + 1)

/-- Rust `str::find` with a string pattern (position of the first occurrence). -/
def findSubstrIdx (s pat : String) : Option Nat :=
  findSubstrIdxGo pat.data s.data 0

/-- Helper for `charFindIdx`. -/
def charFindIdxGo (c : Char) : List Char → Nat → Option Nat
  | [], _ => none
  | x :: rest, i => if x = c then some i else charFindIdxGo c rest (i + 1)

/-- Rust `str::find` with a char pattern. -/
def charFindIdx (s : String) (c : Char) : Option Nat :=
  charFindIdxGo c s.data 0

/-- Helper for `rfindChar`: remembers the last index at which the char was seen. -/
def rfindCharGo (t : Char) : List Char → Nat → Option Nat → Option Nat
  | [], _, acc => acc
  | c :: rest, i, acc => rfindCharGo t rest (i + 1) (if c = t then some i else acc)

/-- Rust `str::rfind` with a char pattern. -/
def rfindChar (s : String) (t : Char) : Option Nat :=
  rfindCharGo t s.data 0 none

/-- Rust `str::get(..n)`. -/
def strSliceTo? (s : String) (n : Nat) : Option String :=
  if n ≤ s.data.length then some (String.mk (s.data.take n)) else none

/-- Rust `str::get(a..)`. -/
def strSliceFrom? (s : String) (a : Nat) : Option String :=
  if a ≤ s.data.length then some (String.mk (s.data.drop a)) else none

/-- Rust `str::get(a..b)`. -/
def strSliceRange? (s : String) (a b : Nat) : Option String :=
  if a ≤ b ∧ b ≤ s.data.length then some (String.mk ((s.data.drop a).take (b - a))) else none

/-- Rust `str::strip_prefix`. -/
def stripPrefixStr (s p : String) : Option String :=
  if p.data.isPrefixOf s.data then some (String.mk (s.data.drop p.data.length)) else none

/-- ASCII lower-casing of one character (Rust `to_lowercase` on the ASCII
language tags and detector patterns the analyzer uses). -/
def toLowerChar (c : Char) : Char :=
  if 65 ≤ c.toNat ∧ c.toNat ≤ 90 then Char.ofNat (c.toNat + 32) else c

/-- Rust `str::to_lowercase`. -/
def toLowerStr (s : String) : String :=
  String.mk (s.data.map toLowerChar)

/-- Helper for `splitWsStr`; `acc` holds the current word reversed. -/
def splitWsGo (acc : List Char) : List Char → List String
  | [] => if acc.isEmpty then [] else [String.mk acc.reverse]
  | c :: rest =>
    if isWspChar c then
      if acc.isEmpty then splitWsGo [] rest
      else String.mk acc.reverse :: splitWsGo [] rest
    else splitWsGo (c :: acc) rest

/-- Rust `str::split_whitespace` (collected). -/
def splitWsStr (s : String) : List String :=
  splitWsGo [] s.data

/-- Splits a character list at every newline; a trailing newline yields a
trailing empty segment. -/
def splitNl : List Char → List (List Char)
  | [] => [[]]
  | c :: rest =>
    if c = '\n' then [] :: splitNl rest
    else
      match splitNl rest with
      | [] => [[c]]
      | l :: ls => (c :: l) :: ls

/-- Removes one trailing carriage return, as Rust `lines` does on every
newline-terminated segment. -/
def stripCrLine (l : List Char) : List Char :=
  if l.getLast? = some '\r' then l.dropLast else l

/-- Rust `str::lines` (collected): split at `\n`, drop the empty segment a
trailing newline produces, strip `\r` from every newline-terminated segment. -/
def rustLines (s : String) : List String :=
  match s.data with
  | [] => []
  | _ =>
    let parts := splitNl s.data
    let broken := parts.dropLast.map (fun l => String.mk (stripCrLine l))
    match parts.getLast? with
    | some [] => broken
    | some last => broken ++ [String.mk last]
    | none => broken

/-- Rust `[&str]::join("\n")`. -/
def joinNl : List String → String
  | [] => ""
  | [l] => l
  | l :: ls => l ++ "\n" ++ joinNl ls

/- ### Data model (`lib.rs` lines 17-110) -/

/-- `ComplexityResult` (lib.rs 17-24). -/
structure ComplexityResult where
  complexity : String
  confidence : ℚ
  details : List String
  line_start : Nat
  line_end : Nat
deriving DecidableEq, Repr

/-- `FunctionAnalysis` (lib.rs 26-34). -/
structure FunctionAnalysis where
  function : String
  complexity : String
  confidence : ℚ
  details : List String
  line_start : Nat
  line_end : Nat
deriving DecidableEq, Repr

/-- `AnalysisResult` (lib.rs 36-42). -/
structure AnalysisResult where
  overall : String
  functions : List FunctionAnalysis
  language : String
  warnings : List String
deriving DecidableEq, Repr

/-- `Complexity` (lib.rs 44-55). -/
inductive Complexity where
  | Constant
  | Logarithmic
  | Linear
  | Linearithmic
  | Quadratic
  | Cubic
  | Polynomial
  | Exponential
  | Factorial
deriving DecidableEq, Repr

/-- `Complexity::to_string` (lib.rs 58-70). -/
def Complexity.to_string : Complexity → String
  | .Constant => "O(1)"
  | .Logarithmic => "O(log n)"
  | .Linear => "O(n)"
  | .Linearithmic => "O(n log n)"
  | .Quadratic => "O(n²)"
  | .Cubic => "O(n³)"
  | .Polynomial => "O(n^k)"
  | .Exponential => "O(2ⁿ)"
  | .Factorial => "O(n!)"

/-- `Complexity::order` (lib.rs 72-84); the `u8` rank is modelled as `Nat`
(all values fit far below 2^8). -/
def Complexity.order : Complexity → Nat
  | .Constant => 0
  | .Logarithmic => 1
  | .Linear => 2
  | .Linearithmic => 3
  | .Quadratic => 4
  | .Cubic => 5
  | .Polynomial => 6
  | .Exponential => 7
  | .Factorial => 8

/-- `Complexity::max` (lib.rs 86-92). -/
def Complexity.max (self other : Complexity) : Complexity :=
  if self.order > other.order then self else other

instance : Fintype Complexity where
  elems := ⟨↑[Complexity.Constant, .Logarithmic, .Linear, .Linearithmic, .Quadratic,
              .Cubic, .Polynomial, .Exponential, .Factorial], by decide⟩
  complete := fun x => by cases x <;> decide

/-- The confidence literal `0.9` of the source, as an exact rational.  (The
source's `f64` confidence only ever holds one of the five literals below or a
`min` of two of them; the raw `Rat` constructor keeps these values
kernel-reducible.) -/
def conf09 : ℚ := ⟨9, 10, by decide, by decide⟩

/-- The confidence literal `0.85` of the source. -/
def conf085 : ℚ := ⟨17, 20, by decide, by decide⟩

/-- The confidence literal `0.8` of the source. -/
def conf08 : ℚ := ⟨4, 5, by decide, by decide⟩

/-- The confidence literal `0.7` of the source. -/
def conf07 : ℚ := ⟨7, 10, by decide, by decide⟩

/-- The confidence literal `0.6` of the source. -/
def conf06 : ℚ := ⟨3, 5, by decide, by decide⟩

/-- `FunctionInfo` (lib.rs 95-105). -/
structure FunctionInfo where
  name : String
  start_line : Nat
  end_line : Nat
  loop_depth : Nat
  recursive_calls : Nat
  has_binary_search : Bool
  has_sorting : Bool
  has_dynamic_programming : Bool
deriving DecidableEq, Repr

/-- `ComplexityAnalyzer` (lib.rs 107-110).  The Rust field is a `HashMap`
whose iteration order is unspecified; it is modelled as an association list,
and theorems about iteration-order sensitivity quantify over permutations of
this list. -/
structure ComplexityAnalyzer where
  language : String
  builtin_functions : List (String × Complexity)
deriving DecidableEq, Repr

/-- The builtin table built by `ComplexityAnalyzer::new` (lib.rs 113-145),
listed in source insertion order. -/
def builtin_functions_for (language : String) : List (String × Complexity) :=
  match toLowerStr language with
  | "javascript" | "typescript" =>
    [("sort", .Linearithmic), ("indexOf", .Linear), ("includes", .Linear),
     ("find", .Linear), ("filter", .Linear), ("map", .Linear), ("reduce", .Linear)]
  | "python" =>
    [("sorted", .Linearithmic), ("sort", .Linearithmic), ("max", .Linear),
     ("min", .Linear), ("sum", .Linear)]
  | "java" =>
    [("Arrays.sort", .Linearithmic), ("Collections.sort", .Linearithmic)]
  | _ => []

/-- `ComplexityAnalyzer::new` (lib.rs 113-145). -/
def ComplexityAnalyzer.new (language : String) : ComplexityAnalyzer :=
  { language := language, builtin_functions := builtin_functions_for language }

/- ### Function extraction (lib.rs 189-399) -/

/-- `ComplexityAnalyzer::create_function_info` (lib.rs 388-399). -/
def create_function_info (name : String) (start e : Nat) : FunctionInfo :=
  { name := name, start_line := start, end_line := e,
    loop_depth := 0, recursive_calls := 0, has_binary_search := false,
    has_sorting := false, has_dynamic_programming := false }

/-- `ComplexityAnalyzer::extract_python_function_name` (lib.rs 317-328). -/
def extract_python_function_name (line : String) : Option String :=
  match charFindIdx line '(' with
  | none => none
  | some paren_pos =>
    match stripPrefixStr (trimStartStr line) "def " with
    | none => none
    | some after_def =>
      let name_end := paren_pos - 4
      match strSliceTo? after_def name_end with
      | none => none
      | some raw =>
        let name := trimStr raw
        if name ≠ "" ∧ rustLen name < 100 then some name else none

/-- State carried through the loop of `extract_python_functions`. -/
structure PyState where
  funcs : List FunctionInfo
  current : Option (String × Nat × Nat)

/-- One iteration of the loop in `extract_python_functions` (lib.rs 221-247),
processing the line with zero-based index `i`. -/
def pyStep (i : Nat) (line : String) (st : PyState) : PyState :=
  let indent_level := rustLen line - rustLen (trimStartStr line)
  if rsStartsWith (trimStartStr line) "def " then
    let funcs :=
      match st.current with
      | some (name, start, _) => st.funcs ++ [create_function_info name start i]
      | none => st.funcs
    match extract_python_function_name line with
    | some func_name => { funcs := funcs, current := some (func_name, i + 1, indent_level) }
    | none => { funcs := funcs, current := none }
  else
    match st.current with
    | some (name, start, base_indent) =>
      if trimStr line ≠ "" ∧ indent_level ≤ base_indent then
        let funcs := st.funcs ++ [create_function_info name start i]
        -- the source re-tests for a `def ` opener here; the test is always
        -- false on this path (the outer branch already failed) but is kept
        if rsStartsWith (trimStartStr line) "def " then
          match extract_python_function_name line with
          | some func_name => { funcs := funcs, current := some (func_name, i + 1, indent_level) }
          | none => { funcs := funcs, current := none }
        else { funcs := funcs, current := none }
      else st
    | none => st

/-- The loop of `extract_python_functions` followed by the final flush
(lib.rs 249-252); `i` is the index of the next line. -/
def pyGo : Nat → List String → PyState → List FunctionInfo
  | i, [], st =>
    match st.current with
    | some (name, start, _) => st.funcs ++ [create_function_info name start i]
    | none => st.funcs
  | i, line :: rest, st => pyGo (i + 1) rest (pyStep i line st)

/-- `ComplexityAnalyzer::extract_python_functions` (lib.rs 218-253). -/
def extract_python_functions (lines : List String) : List FunctionInfo :=
  pyGo 0 lines { funcs := [], current := none }

/-- `ComplexityAnalyzer::extract_js_function_name`, method-definition branch
(lib.rs 357-367). -/
def jsMethodBranch (line : String) : Option String :=
  if strContainsChar line ':' ∧ strContains line "function" then
    match charFindIdx line ':' with
    | some colon_pos =>
      match strSliceTo? line colon_pos with
      | none => none
      | some raw =>
        let name := trimStr raw
        if name ≠ "" ∧ rustLen name < 100 ∧ name.data.all (fun c => c.isAlphanum || c = '_')
        then some name else none
    | none => none
  else none

/-- `ComplexityAnalyzer::extract_js_function_name`, arrow-function branch
(lib.rs 342-354); falls through to the method branch on failure unless a
`?` operator propagated `None`. -/
def jsArrowBranch (line : String) : Option String :=
  match findSubstrIdx line " => " with
  | some arrow_pos =>
    match findSubstrIdx line " = " with
    | some eq_pos =>
      if eq_pos < arrow_pos then
        match strSliceTo? line eq_pos with
        | none => none
        | some before_eq =>
          match rfindChar before_eq ' ' with
          | some space_pos =>
            match strSliceFrom? before_eq (space_pos + 1) with
            | none => none
            | some raw =>
              let name := trimStr raw
              if name ≠ "" ∧ rustLen name < 100 then some name else jsMethodBranch line
          | none => jsMethodBranch line
      else jsMethodBranch line
    | none => jsMethodBranch line
  | none => jsMethodBranch line

/-- `ComplexityAnalyzer::extract_js_function_name` (lib.rs 330-370). -/
def extract_js_function_name (line : String) : Option String :=
  if rsStartsWith line "function " then
    match charFindIdx line '(' with
    | some paren_pos =>
      match strSliceRange? line 9 paren_pos with
      | none => none
      | some raw =>
        let name := trimStr raw
        if name ≠ "" ∧ rustLen name < 100 then some name else jsArrowBranch line
    | none => jsArrowBranch line
  else jsArrowBranch line

/-- `ComplexityAnalyzer::extract_c_style_function_name` (lib.rs 372-386). -/
def extract_c_style_function_name (line : String) : Option String :=
  if strContainsChar line '(' ∧ (strContainsChar line lbraceChar ∨ rsEndsWith line ";") then
    let before_paren := String.mk (line.data.takeWhile (fun c => c ≠ '('))
    let words := splitWsStr before_paren
    match words.getLast? with
    | some last_word =>
      if ¬ (last_word ∈ (["if", "while", "for", "switch", "catch"] : List String)) ∧
         rustLen last_word < 100
      then some last_word else none
    | none => none
  else none

/-- State carried through the brace-balance loops of `extract_js_functions`
and `extract_c_style_functions`. -/
structure BraceState where
  funcs : List FunctionInfo
  current : Option (String × Nat)
  brace_count : Int

/-- The shared loop body and final flush of `extract_js_functions`
(lib.rs 255-282) and `extract_c_style_functions` (lib.rs 284-311): the two
source loops are textually identical apart from the name-extraction call,
passed here as `nameOf`. -/
def braceGo (nameOf : String → Option String) : Nat → List String → BraceState → List FunctionInfo
  | i, [], st =>
    match st.current with
    | some (name, start) => st.funcs ++ [create_function_info name start i]
    | none => st.funcs
  | i, line :: rest, st =>
    let trimmed := trimStr line
    match nameOf trimmed with
    | some func_name =>
      let funcs :=
        match st.current with
        | some (name, start) => st.funcs ++ [create_function_info name start i]
        | none => st.funcs
      braceGo nameOf (i + 1) rest
        { funcs := funcs, current := some (func_name, i + 1),
          brace_count := (countChar line lbraceChar : Int) - (countChar line rbraceChar : Int) }
    | none =>
      match st.current with
      | some (name, start) =>
        let bc := st.brace_count + (countChar line lbraceChar : Int) - (countChar line rbraceChar : Int)
        if bc ≤ 0 then
          braceGo nameOf (i + 1) rest
            { funcs := st.funcs ++ [create_function_info name start (i + 1)],
              current := none, brace_count := bc }
        else
          braceGo nameOf (i + 1) rest { funcs := st.funcs, current := some (name, start), brace_count := bc }
      | none => braceGo nameOf (i + 1) rest st

/-- `ComplexityAnalyzer::extract_js_functions` (lib.rs 255-282). -/
def extract_js_functions (lines : List String) : List FunctionInfo :=
  braceGo extract_js_function_name 0 lines { funcs := [], current := none, brace_count := 0 }

/-- `ComplexityAnalyzer::extract_c_style_functions` (lib.rs 284-311). -/
def extract_c_style_functions (lines : List String) : List FunctionInfo :=
  braceGo extract_c_style_function_name 0 lines { funcs := [], current := none, brace_count := 0 }

/-- `ComplexityAnalyzer::extract_generic_functions` (lib.rs 313-315). -/
def extract_generic_functions (lines : List String) : List FunctionInfo :=
  extract_c_style_functions lines

/-- `ComplexityAnalyzer::extract_functions` (lib.rs 189-216). -/
def extract_functions (language code : String) : List FunctionInfo :=
  let lines := rustLines code
  if lines.length > 10000 then
    [create_function_info "main" 1 (Nat.min lines.length 1000)]
  else
    let functions :=
      match toLowerStr language with
      | "python" => extract_python_functions lines
      | "javascript" | "typescript" => extract_js_functions lines
      | "java" | "c" | "cpp" | "c++" | "rust" => extract_c_style_functions lines
      | _ => extract_generic_functions lines
    if functions.isEmpty then [create_function_info "main" 1 lines.length]
    else functions

/- ### Signal detectors (lib.rs 530-663) -/

/-- `ComplexityAnalyzer::is_loop_start` (lib.rs 566-578). -/
def is_loop_start (language line : String) : Bool :=
  if toLowerStr language = "python" then
    rsStartsWith line "for " || rsStartsWith line "while "
  else
    rsStartsWith line "for " || rsStartsWith line "for(" ||
    rsStartsWith line "while " || rsStartsWith line "while(" ||
    strContains line "for (" || strContains line "while ("

/-- `ComplexityAnalyzer::is_python_dedent` (lib.rs 580-585). -/
def is_python_dedent (line : String) : Bool :=
  trimStr line ≠ "" && !(rsStartsWith line " ") && !(rsStartsWith line "\t") &&
  !(rsStartsWith (trimStr line) "#")

/-- One line of the scan in `ComplexityAnalyzer::calculate_loop_depth`
(lib.rs 534-561); the state is `(max_depth, current_depth)`. -/
def loop_depth_line_step (language : String) (st : Nat × Nat) (line : String) : Nat × Nat :=
  let trimmed := trimStr line
  if trimmed = "" || rsStartsWith trimmed "//" || rsStartsWith trimmed "#" then st
  else
    let p :=
      if is_loop_start language trimmed then (Nat.max st.1 (st.2 + 1), st.2 + 1)
      else st
    if toLowerStr language = "python" then
      if is_python_dedent line then (p.1, p.2 - 1) else p
    else
      (p.1, p.2 - countChar line rbraceChar)

/-- `ComplexityAnalyzer::calculate_loop_depth` (lib.rs 530-564). -/
def calculate_loop_depth (language code : String) : Nat :=
  let st := ((rustLines code).take 1000).foldl (loop_depth_line_step language) (0, 0)
  Nat.min st.1 10

/-- `ComplexityAnalyzer::count_function_calls` (lib.rs 587-594). -/
def count_function_calls (code function_name : String) : Nat :=
  if rustLen function_name > 50 then 0
  else Nat.min (countOccs code (function_name ++ "(")) 100

/-- `ComplexityAnalyzer::detect_binary_search` (lib.rs 596-606). -/
def detect_binary_search (code : String) : Bool :=
  let has_mid := strContains code "mid" || strContains code "middle"
  let has_bounds :=
    (strContains code "left" || strContains code "low" || strContains code "start") &&
    (strContains code "right" || strContains code "high" || strContains code "end")
  let has_division :=
    strContains code "/2" || strContains code ">> 1" ||
    strContains code "div 2" || strContains code "// 2"
  has_mid && has_bounds && has_division

/-- `ComplexityAnalyzer::detect_sorting` (lib.rs 608-622). -/
def detect_sorting (code : String) : Bool :=
  ["sort(", ".sort(", "sorted(", "quicksort", "mergesort", "Arrays.sort",
   "Collections.sort"].any
    (fun pattern => strContains (toLowerStr code) (toLowerStr pattern))

/-- `ComplexityAnalyzer::detect_dynamic_programming` (lib.rs 624-630). -/
def detect_dynamic_programming (code : String) : Bool :=
  ["memo", "cache", "dp[", "table[", "@lru_cache", "@cache"].any
    (fun indicator => strContains (toLowerStr code) (toLowerStr indicator))

/-- `ComplexityAnalyzer::detect_factorial_pattern` (lib.rs 632-634). -/
def detect_factorial_pattern (code : String) : Bool :=
  strContains code "factorial" || (strContains code "*" && strContains code "n-1")

/-- `ComplexityAnalyzer::is_divide_and_conquer` (lib.rs 636-640). -/
def is_divide_and_conquer (code : String) : Bool :=
  let has_division := strContains code "mid" || strContains code "/2" || strContains code ">> 1"
  let has_merge_combine := strContains code "merge" || strContains code "combine"
  has_division && has_merge_combine

/-- The reverse scan inside `is_tail_recursive`. -/
def is_tail_recursive_go (pattern : String) : List String → Bool
  | [] => false
  | line :: rest =>
    let trimmed := trimStr line
    if strContains trimmed pattern then rsStartsWith trimmed "return "
    else is_tail_recursive_go pattern rest

/-- `ComplexityAnalyzer::is_tail_recursive` (lib.rs 642-654). -/
def is_tail_recursive (code function_name : String) : Bool :=
  is_tail_recursive_go (function_name ++ "(") ((rustLines code).reverse.take 10)

/-- `ComplexityAnalyzer::is_fibonacci_like` (lib.rs 656-663). -/
def is_fibonacci_like (code function_name : String) : Bool :=
  let call_count := countOccs code (function_name ++ "(")
  decide (call_count ≥ 2) &&
  (strContains code "n-1" || strContains code "n - 1") &&
  (strContains code "n-2" || strContains code "n - 2")

/- ### Per-function analysis (lib.rs 401-528) -/

/-- The running `(complexity, confidence, details)` mutable state of
`analyze_function`. -/
structure AnalState where
  complexity : Complexity
  confidence : ℚ
  details : List String
deriving DecidableEq, Repr

/-- The builtin scan of `analyze_function` (lib.rs 425-430). -/
def builtin_scan (builtins : List (String × Complexity)) (function_body : String)
    (st : AnalState) : AnalState :=
  builtins.foldl
    (fun st bc =>
      if strContains function_body bc.1 then
        { st with complexity := st.complexity.max bc.2,
                  details := st.details ++ ["Built-in function \x27" ++ bc.1 ++ "\x27 detected"] }
      else st)
    st

/-- The loop-depth match of `analyze_function` (lib.rs 440-472); the source's
final `_ => {}` arm is unreachable and has no counterpart here. -/
def loop_depth_step (loop_depth recursive_calls : Nat) (has_binary_search : Bool)
    (st : AnalState) : AnalState :=
  match loop_depth with
  | 0 =>
    if recursive_calls = 0 then
      { st with details := st.details ++ ["No loops or recursion detected"] }
    else st
  | 1 =>
    let st := { st with complexity := st.complexity.max .Linear,
                        details := st.details ++ ["Single loop detected"] }
    if has_binary_search then
      { st with complexity := .Logarithmic,
                details := st.details ++ ["Binary search pattern overrides linear complexity"],
                confidence := conf09 }
    else st
  | 2 =>
    { complexity := st.complexity.max .Quadratic,
      details := st.details ++ ["Nested loops detected (depth: 2)"], confidence := conf085 }
  | 3 =>
    { complexity := st.complexity.max .Cubic,
      details := st.details ++ ["Triple nested loops detected"], confidence := conf085 }
  | n + 4 =>
    { complexity := st.complexity.max .Polynomial,
      details := st.details ++ ["Deeply nested loops (depth: " ++ toString (n + 4) ++ ")"],
      confidence := conf07 }

/-- The recursion-pattern block of `analyze_function` (lib.rs 474-499). -/
def recursion_step (function_body function_name : String) (recursive_calls : Nat)
    (st : AnalState) : AnalState :=
  if recursive_calls > 0 then
    if is_tail_recursive function_body function_name then
      { complexity := st.complexity.max .Linear,
        details := st.details ++ ["Tail recursion detected"], confidence := conf08 }
    else if is_divide_and_conquer function_body then
      { complexity := st.complexity.max .Linearithmic,
        details := st.details ++ ["Divide and conquer recursion detected"], confidence := conf085 }
    else if recursive_calls > 1 then
      if is_fibonacci_like function_body function_name then
        { complexity := st.complexity.max .Exponential,
          details := st.details ++ ["Exponential recursion (fibonacci-like) detected"],
          confidence := conf09 }
      else
        { complexity := st.complexity.max .Exponential,
          details := st.details ++ ["Multiple recursive calls detected"], confidence := conf07 }
    else
      { complexity := st.complexity.max .Linear,
        details := st.details ++ ["Simple recursion detected"], confidence := conf07 }
  else st

/-- The dynamic-programming block of `analyze_function` (lib.rs 502-506). -/
def dp_step (has_dynamic_programming : Bool) (st : AnalState) : AnalState :=
  if has_dynamic_programming then
    { st with details := st.details ++ ["Dynamic programming pattern detected - may reduce complexity"],
              confidence := min st.confidence conf06 }
  else st

/-- The sorting block of `analyze_function` (lib.rs 509-512). -/
def sorting_step (has_sorting : Bool) (st : AnalState) : AnalState :=
  if has_sorting then
    { st with complexity := st.complexity.max .Linearithmic,
              details := st.details ++ ["Sorting operation detected"] }
  else st

/-- The factorial block of `analyze_function` (lib.rs 515-519). -/
def factorial_step (has_factorial : Bool) (st : AnalState) : AnalState :=
  if has_factorial then
    { complexity := st.complexity.max .Factorial,
      details := st.details ++ ["Factorial complexity pattern detected"], confidence := conf08 }
  else st

/-- `ComplexityAnalyzer::analyze_function` (lib.rs 401-528). -/
def analyze_function (self : ComplexityAnalyzer) (func : FunctionInfo) (full_code : String) :
    ComplexityResult :=
  let lines := rustLines full_code
  let start_idx := func.start_line - 1
  let end_idx := Nat.min func.end_line lines.length
  if start_idx ≥ lines.length ∨ start_idx ≥ end_idx then
    { complexity := Complexity.to_string .Constant, confidence := conf09,
      details := ["Unable to analyze function body"],
      line_start := func.start_line, line_end := func.end_line }
  else
    let function_body := joinNl ((lines.drop start_idx).take (end_idx - start_idx))
    let st := builtin_scan self.builtin_functions function_body
      { complexity := .Constant, confidence := conf09, details := [] }
    let loop_depth := calculate_loop_depth self.language function_body
    let recursive_calls := count_function_calls function_body func.name
    let has_binary_search := detect_binary_search function_body
    let has_sorting := detect_sorting function_body
    let has_dynamic_programming := detect_dynamic_programming function_body
    let st := loop_depth_step loop_depth recursive_calls has_binary_search st
    let st := recursion_step function_body func.name recursive_calls st
    let st := dp_step has_dynamic_programming st
    let st := sorting_step has_sorting st
    let st := factorial_step (detect_factorial_pattern function_body) st
    { complexity := st.complexity.to_string, confidence := st.confidence,
      details := st.details, line_start := func.start_line, line_end := func.end_line }

/- ### Aggregation and entry point (lib.rs 147-187, 665-717) -/

/-- The worst-to-best ordering scanned by `get_overall_complexity`
(lib.rs 670-680). -/
def complexity_order : List String :=
  ["O(n!)", "O(2ⁿ)", "O(n^k)", "O(n³)", "O(n²)", "O(n log n)", "O(n)", "O(log n)", "O(1)"]

/-- `ComplexityAnalyzer::get_overall_complexity` (lib.rs 665-689). -/
def get_overall_complexity (functions : List FunctionAnalysis) : String :=
  if functions.isEmpty then "O(1)"
  else
    match complexity_order.find? (fun c => functions.any (fun f => f.complexity == c)) with
    | some c => c
    | none => "O(1)"

/-- `ComplexityAnalyzer::analyze` (lib.rs 147-187). -/
def ComplexityAnalyzer.analyze (self : ComplexityAnalyzer) (code : String) : AnalysisResult :=
  if rustLen code > 100000 then
    { overall := "O(1)", functions := [], language := self.language,
      warnings := ["Code too large to analyze safely"] }
  else
    let functions := extract_functions self.language code
    let warnings :=
      if functions.isEmpty then
        ["No functions detected. Analyzing entire code as single block."]
      else []
    let function_results := functions.map (fun func =>
      let analysis := analyze_function self func code
      ({ function := func.name, complexity := analysis.complexity,
         confidence := analysis.confidence, details := analysis.details,
         line_start := analysis.line_start, line_end := analysis.line_end } : FunctionAnalysis))
    { overall := get_overall_complexity function_results, functions := function_results,
      language := self.language, warnings := warnings }

/-- `analyze_complexity` (lib.rs 692-717); the host-boundary `JsValue`
serialization (which always succeeds on these records) is not modelled. -/
def analyze_complexity (code language : String) : Except String AnalysisResult :=
  if code = "" then .error "Empty code provided"
  else if rustLen code > 500000 then .error "Code too large to analyze"
  else .ok ((ComplexityAnalyzer.new language).analyze code)

/- ### Concrete inputs from the specification's scenarios -/

/-- The Scenario A source (spec §8): two nested `for` loops in a Python `def`. -/
def scenarioA : String :=
  "def f(n):\n    for i in range(n):\n        for j in range(n):\n            pass"

/-- The Scenario B source (spec §8): the six-line JavaScript `bsearch` function. -/
def scenarioB : String :=
  "function bsearch(arr, x) \x7b\n  let left = 0, right = arr.length;\n  while (left < right) \x7b\n    let mid = (left + right) / 2;\n  \x7d\n\x7d"

/-- The Scenario C source (spec §8): the three-line Python `fib` function. -/
def scenarioC : String :=
  "def fib(n):\n    if n < 2: return n\n    return fib(n-1) + fib(n-2)"

/-- A source with no recognizable function construct (spec Scenario E). -/
def bareSrc : String := "x = 1\ny = 2"

/-- A JavaScript source whose body mentions two different builtins (`sort` and
`map`), so that the builtin-scan rationale order depends on the table's
iteration order. -/
def twoBuiltinSrc : String :=
  "function g(a) \x7b\n  a.sort();\n  a.map(h);\n\x7d"

/-- A string of `n` copies of one character (used to build the large inputs
named by the size-limit scenarios). -/
def repChar (n : Nat) (c : Char) : String :=
  String.mk (List.replicate n c)

/- ### Helper lemmas about the large replicated inputs -/

theorem utf8Len_replicate (n : Nat) : utf8Len (List.replicate n 'a') = n := by
  induction n with
  | zero => rfl
  | succ k ih =>
    rw [List.replicate_succ]
    show charUtf8Size 'a' + utf8Len (List.replicate k 'a') = k + 1
    rw [ih]
    have h1 : charUtf8Size 'a' = 1 := rfl
    omega

theorem rustLen_repChar (n : Nat) : rustLen (repChar n 'a') = n :=
  utf8Len_replicate n

theorem repChar_ne_empty (n : Nat) (h : n ≠ 0) : repChar n 'a' ≠ "" := by
  intro he
  have hd : List.replicate n 'a' = ([] : List Char) := congrArg String.data he
  have := congrArg List.length hd
  simp at this
  exact h this

/-- Whether a call of the entry point produced a report (`Ok`) rather than an
input-rejected error. -/
def producesReport : Except String AnalysisResult → Bool
  | .ok _ => true
  | .error _ => false

/- ### C4: the complexity lattice -/

/-- C4: over all nine complexity classes, `Complexity.max` (the spec's
`combine`) is commutative, associative, idempotent, always returns one of its
two operands, and the rank of the result is the larger of the operands'
ranks. -/
theorem combine_is_semilattice_join :
    ∀ a b c : Complexity,
      a.max b = b.max a ∧
      (a.max b).max c = a.max (b.max c) ∧
      a.max a = a ∧
      (a.max b = a ∨ a.max b = b) ∧
      (a.max b).order = Nat.max a.order b.order := by
  decide

/- ### C1: Scenario B -/

/-- C1 counterexample: on the Scenario B input the only function report is
`("bsearch", "O(n)", 0.7)`, and no function report is classified Logarithmic
or carries confidence 0.9 — the binary-search override does not fire (the
source writes `/ 2` with a space, which matches none of the halving patterns
`/2`, `>> 1`, `div 2`, `// 2`). -/
theorem scenarioB_binary_search_override_fails :
    (((ComplexityAnalyzer.new "javascript").analyze scenarioB).functions.map
        (fun f => (f.function, f.complexity, f.confidence)) =
      [("bsearch", "O(n)", conf07)]) ∧
    (decide (∃ f ∈ ((ComplexityAnalyzer.new "javascript").analyze scenarioB).functions,
        f.complexity = "O(log n)" ∨ f.confidence = conf09)) = false := by
  decide

/-- C1 amended: on the Scenario B input, analyze produces for `bsearch` the
classification Linear (`O(n)`) with confidence 0.7 and the rationale
`["Single loop detected", "Simple recursion detected"]` (the `while` loop
fires the single-loop branch, and the `bsearch(` of the signature line counts
as one recursive call). -/
theorem scenarioB_analysis_linear :
    analyze_complexity scenarioB "javascript" =
      .ok { overall := "O(n)",
            functions := [{ function := "bsearch", complexity := "O(n)", confidence := conf07,
                            details := ["Single loop detected", "Simple recursion detected"],
                            line_start := 1, line_end := 6 }],
            language := "javascript", warnings := [] } := by
  rfl

/- ### C2: Scenario C -/

/-- C2 counterexample: on the Scenario C input the only function report is
`("fib", "O(n)", 0.8)`; no report is Exponential, none has confidence 0.9 and
none mentions fibonacci-like recursion. -/
theorem scenarioC_not_exponential :
    (((ComplexityAnalyzer.new "python").analyze scenarioC).functions.map
        (fun f => (f.function, f.complexity, f.confidence)) =
      [("fib", "O(n)", conf08)]) ∧
    (decide (∃ f ∈ ((ComplexityAnalyzer.new "python").analyze scenarioC).functions,
        f.complexity = "O(2ⁿ)" ∨ f.confidence = conf09 ∨
        "Exponential recursion (fibonacci-like) detected" ∈ f.details)) = false := by
  decide

/-- C2 amended: on the Scenario C input, analyze produces classification
Linear (`O(n)`) with confidence 0.8 and rationale `["Tail recursion detected"]`:
the last line containing a self-call (`return fib(n-1) + fib(n-2)`) starts
with `return `, so `is_tail_recursive` is true and the tail-recursion branch
takes priority over the fibonacci-like branch. -/
theorem scenarioC_analysis_tail_recursive_linear :
    analyze_complexity scenarioC "python" =
      .ok { overall := "O(n)",
            functions := [{ function := "fib", complexity := "O(n)", confidence := conf08,
                            details := ["Tail recursion detected"],
                            line_start := 1, line_end := 3 }],
            language := "python", warnings := [] } := by
  rfl

/- ### C3: Scenario A -/

/-- C3 counterexample: on the Scenario A input the only function report is
`("f", "O(n²)", 0.7)` — the classification is Quadratic as claimed, but no
report carries the claimed confidence 0.85. -/
theorem scenarioA_confidence_not_085 :
    (((ComplexityAnalyzer.new "python").analyze scenarioA).functions.map
        (fun f => (f.function, f.complexity, f.confidence)) =
      [("f", "O(n²)", conf07)]) ∧
    (decide (∃ f ∈ ((ComplexityAnalyzer.new "python").analyze scenarioA).functions,
        f.confidence = conf085)) = false := by
  decide

/-- C3 amended: on the Scenario A input, analyze produces exactly one function
report named `f`, classified Quadratic with rationale containing
`"Nested loops detected (depth: 2)"`, but with confidence 0.7 and the extra
rationale `"Simple recursion detected"`: the `def f(n):` line itself contains
`f(`, so `count_function_calls` reports one self-call and the
simple-recursion branch overwrites the 0.85 set by the nested-loop branch. -/
theorem scenarioA_analysis_quadratic :
    analyze_complexity scenarioA "python" =
      .ok { overall := "O(n²)",
            functions := [{ function := "f", complexity := "O(n²)", confidence := conf07,
                            details := ["Nested loops detected (depth: 2)",
                                        "Simple recursion detected"],
                            line_start := 1, line_end := 4 }],
            language := "python", warnings := [] } := by
  rfl

/- ### C5: the overall classification is the lattice join -/

/-- The lattice join of a list of classes (`Constant`, the bottom element,
for the empty list). -/
def joinAll (cs : List Complexity) : Complexity :=
  cs.foldl Complexity.max .Constant

/-- The nine classes in the worst-to-best order that `complexity_order`
renders. -/
def descClasses : List Complexity :=
  [.Factorial, .Exponential, .Polynomial, .Cubic, .Quadratic, .Linearithmic,
   .Linear, .Logarithmic, .Constant]

/-- The first class of the worst-to-best ordering satisfying `p`
(`Constant` when none does). -/
def scanP (p : Complexity → Bool) : Complexity :=
  (descClasses.find? p).getD .Constant

theorem cmax_const_left (a : Complexity) : Complexity.max .Constant a = a := by
  cases a <;> decide

theorem cmax_const_right (a : Complexity) : Complexity.max a .Constant = a := by
  cases a <;> decide

theorem cmax_assoc (a b c : Complexity) :
    (a.max b).max c = a.max (b.max c) := by
  cases a <;> cases b <;> cases c <;> decide

theorem scanP_or :
    ∀ (a : Complexity) (p : Complexity → Bool),
      scanP (fun c => (a == c) || p c) = Complexity.max a (scanP p) := by
  decide

theorem foldl_max_shift (cs : List Complexity) :
    ∀ a, cs.foldl Complexity.max a = Complexity.max a (joinAll cs) := by
  induction cs with
  | nil => intro a; rw [joinAll]; simp [List.foldl, cmax_const_right]
  | cons x cs ih =>
    intro a
    show cs.foldl Complexity.max (a.max x) = Complexity.max a (joinAll (x :: cs))
    rw [ih (a.max x), cmax_assoc]
    have hx : joinAll (x :: cs) = Complexity.max x (joinAll cs) := by
      show cs.foldl Complexity.max (Complexity.max .Constant x) = _
      rw [cmax_const_left, ih x]
    rw [hx]

theorem joinAll_cons (a : Complexity) (cs : List Complexity) :
    joinAll (a :: cs) = Complexity.max a (joinAll cs) := by
  show cs.foldl Complexity.max (Complexity.max .Constant a) = _
  rw [cmax_const_left, foldl_max_shift]

theorem scanP_any (cs : List Complexity) :
    scanP (fun c => cs.any (fun x => x == c)) = joinAll cs := by
  induction cs with
  | nil => rfl
  | cons a cs ih =>
    have hp : (fun c => (a :: cs).any (fun x => x == c)) =
        fun c => (a == c) || cs.any (fun x => x == c) := by
      funext c
      simp [List.any_cons]
    rw [hp, scanP_or, ih, joinAll_cons]

theorem beq_to_string (x c : Complexity) :
    (x.to_string == c.to_string) = (x == c) := by
  cases x <;> cases c <;> decide

theorem find?_map_to_string (p : String → Bool) (l : List Complexity) :
    (l.map Complexity.to_string).find? p =
      (l.find? (fun c => p c.to_string)).map Complexity.to_string := by
  induction l with
  | nil => rfl
  | cons a l ih =>
    by_cases h : p a.to_string
    · simp [List.find?, h]
    · simp [List.find?, h, ih]

theorem any_map_complexity (fas : List FunctionAnalysis) (s : String) :
    fas.any (fun f => f.complexity == s) =
      (fas.map FunctionAnalysis.complexity).any (fun t => t == s) := by
  induction fas with
  | nil => rfl
  | cons f fas ih => simp [List.any_cons, ih]

theorem any_map_to_string (cs : List Complexity) (c : Complexity) :
    (cs.map Complexity.to_string).any (fun t => t == c.to_string) =
      cs.any (fun x => x == c) := by
  induction cs with
  | nil => rfl
  | cons y ys ih => simp [List.any_cons, ih, beq_to_string]

/-- C5: the `overall` field of every report equals
`get_overall_complexity` of its function list, and the worst-to-best scan of
`get_overall_complexity` computes exactly the rendered lattice join of the
per-function classes — in particular `"O(1)"` (Constant) for an empty
function list. -/
theorem overall_is_lattice_join :
    (∀ (self : ComplexityAnalyzer) (code : String),
        (self.analyze code).overall = get_overall_complexity (self.analyze code).functions) ∧
    (∀ (fas : List FunctionAnalysis) (cs : List Complexity),
        fas.map FunctionAnalysis.complexity = cs.map Complexity.to_string →
        get_overall_complexity fas = (joinAll cs).to_string) := by
  constructor
  · intro self code
    unfold ComplexityAnalyzer.analyze
    split
    · rfl
    · rfl
  · intro fas cs h
    unfold get_overall_complexity
    cases fas with
    | nil =>
      have h0 : cs.map Complexity.to_string = [] := by simpa using h.symm
      have hcs : cs = [] := List.map_eq_nil_iff.mp h0
      subst hcs
      rfl
    | cons f rest =>
      have hne : ((f :: rest).isEmpty) = false := rfl
      rw [hne]
      simp only [Bool.false_eq_true, if_false]
      have hq : (fun c => (f :: rest).any (fun g => g.complexity == c)) =
          fun c => (cs.map Complexity.to_string).any (fun t => t == c) := by
        funext c
        rw [any_map_complexity, h]
      rw [hq]
      have horder : complexity_order = descClasses.map Complexity.to_string := rfl
      rw [horder, find?_map_to_string]
      have hinner : (fun c => (cs.map Complexity.to_string).any
          (fun t => t == Complexity.to_string c)) = fun c => cs.any (fun x => x == c) := by
        funext c
        exact any_map_to_string cs c
      rw [hinner]
      have hscan := scanP_any cs
      unfold scanP at hscan
      cases hfind : descClasses.find? (fun c => cs.any (fun x => x == c)) with
      | none =>
        rw [hfind] at hscan
        simp at hscan
        rw [← hscan]
        rfl
      | some d =>
        rw [hfind] at hscan
        simp at hscan
        rw [← hscan]
        rfl

/-- Witness for C5 at a concrete two-function report list. -/
theorem overall_is_lattice_join_witness :
    ([({ function := "f", complexity := "O(n²)", confidence := conf07, details := [],
         line_start := 1, line_end := 4 } : FunctionAnalysis),
      ({ function := "g", complexity := "O(n)", confidence := conf08, details := [],
         line_start := 1, line_end := 2 } : FunctionAnalysis)].map FunctionAnalysis.complexity =
      [Complexity.Quadratic, Complexity.Linear].map Complexity.to_string) ∧
    get_overall_complexity
      [{ function := "f", complexity := "O(n²)", confidence := conf07, details := [],
         line_start := 1, line_end := 4 },
       { function := "g", complexity := "O(n)", confidence := conf08, details := [],
         line_start := 1, line_end := 2 }] =
      (joinAll [Complexity.Quadratic, Complexity.Linear]).to_string :=
  ⟨rfl, overall_is_lattice_join.2 _ [Complexity.Quadratic, Complexity.Linear] rfl⟩

/- ### C10: extractor spans stay inside the input -/

/-- A span lies inside an `n`-line input: 1-based start, start at most the
end, end at most `n`. -/
def SpanOK (n : Nat) (f : FunctionInfo) : Prop :=
  1 ≤ f.start_line ∧ f.start_line ≤ f.end_line ∧ f.end_line ≤ n

/-- Bound on the recorded start line of the currently open python span. -/
def PyCurOK (j : Nat) : Option (String × Nat × Nat) → Prop
  | some (_, s, _) => 1 ≤ s ∧ s ≤ j
  | none => True

/-- Bound on the recorded start line of the currently open brace-family span. -/
def BraceCurOK (j : Nat) : Option (String × Nat) → Prop
  | some (_, s) => 1 ≤ s ∧ s ≤ j
  | none => True

/-- The loop invariant of the python extraction loop. -/
def PyOK (n j : Nat) (st : PyState) : Prop :=
  (∀ f ∈ st.funcs, SpanOK n f) ∧ PyCurOK j st.current

/-- The loop invariant of the brace-family extraction loop. -/
def BraceOK (n j : Nat) (st : BraceState) : Prop :=
  (∀ f ∈ st.funcs, SpanOK n f) ∧ BraceCurOK j st.current

theorem funcs_push_ok (n : Nat) (funcs : List FunctionInfo) (nm : String) (s e : Nat)
    (hf : ∀ f ∈ funcs, SpanOK n f) (h1 : 1 ≤ s) (h2 : s ≤ e) (h3 : e ≤ n) :
    ∀ f ∈ funcs ++ [create_function_info nm s e], SpanOK n f := by
  intro f hmem
  rcases List.mem_append.mp hmem with h | h
  · exact hf f h
  · have he : f = create_function_info nm s e := by simpa using h
    subst he
    exact ⟨h1, h2, h3⟩

theorem pyStep_inv (i n : Nat) (line : String) (st : PyState)
    (h : PyOK n i st) (hin : i ≤ n) : PyOK n (i + 1) (pyStep i line st) := by
  obtain ⟨funcs0, cur0⟩ := st
  obtain ⟨hf, hc⟩ := h
  unfold pyStep
  cases cur0 with
  | none =>
    cases hname : extract_python_function_name line with
    | some fn =>
      dsimp only
      split
      · exact ⟨hf, Nat.succ_le_succ (Nat.zero_le i), Nat.le.refl⟩
      · exact ⟨hf, trivial⟩
    | none =>
      dsimp only
      split
      · exact ⟨hf, trivial⟩
      · exact ⟨hf, trivial⟩
  | some nsb =>
    obtain ⟨nm0, s0, b0⟩ := nsb
    have hc1 : 1 ≤ s0 := hc.1
    have hc2 : s0 ≤ i := hc.2
    have hpush := funcs_push_ok n funcs0 nm0 s0 i hf hc1 hc2 hin
    cases hname : extract_python_function_name line with
    | some fn =>
      dsimp only
      split
      · exact ⟨hpush, Nat.succ_le_succ (Nat.zero_le i), Nat.le.refl⟩
      · split
        · exact ⟨hpush, trivial⟩
        · exact ⟨hf, hc1, Nat.le_succ_of_le hc2⟩
    | none =>
      dsimp only
      split
      · exact ⟨hpush, trivial⟩
      · split
        · exact ⟨hpush, trivial⟩
        · exact ⟨hf, hc1, Nat.le_succ_of_le hc2⟩

theorem pyGo_spans :
    ∀ (lines : List String) (i : Nat) (st : PyState),
      PyOK (i + lines.length) i st →
      ∀ f ∈ pyGo i lines st, SpanOK (i + lines.length) f := by
  intro lines
  induction lines with
  | nil =>
    intro i st h f hmem
    obtain ⟨funcs0, cur0⟩ := st
    obtain ⟨hf, hc⟩ := h
    simp only [pyGo] at hmem
    cases cur0 with
    | none => exact hf f hmem
    | some nsb =>
      obtain ⟨nm0, s0, b0⟩ := nsb
      exact funcs_push_ok _ funcs0 nm0 s0 i hf hc.1 hc.2 (Nat.le_add_right i _) f hmem
  | cons l rest ih =>
    intro i st h f hmem
    obtain ⟨hf, hc⟩ := h
    simp only [pyGo] at hmem
    have hN : i + (l :: rest).length = (i + 1) + rest.length := by
      rw [List.length_cons]
      omega
    rw [hN] at hf ⊢
    refine ih (i + 1) (pyStep i l st) ?_ f hmem
    exact pyStep_inv i _ l st ⟨hf, hc⟩ (by omega)

theorem braceGo_spans (nameOf : String → Option String) :
    ∀ (lines : List String) (i : Nat) (st : BraceState),
      BraceOK (i + lines.length) i st →
      ∀ f ∈ braceGo nameOf i lines st, SpanOK (i + lines.length) f := by
  intro lines
  induction lines with
  | nil =>
    intro i st h f hmem
    obtain ⟨funcs0, cur0, bc0⟩ := st
    obtain ⟨hf, hc⟩ := h
    simp only [braceGo] at hmem
    cases cur0 with
    | none => exact hf f hmem
    | some ns =>
      obtain ⟨nm0, s0⟩ := ns
      exact funcs_push_ok _ funcs0 nm0 s0 i hf hc.1 hc.2 (Nat.le_add_right i _) f hmem
  | cons l rest ih =>
    intro i st h f hmem
    obtain ⟨funcs0, cur0, bc0⟩ := st
    obtain ⟨hf, hc⟩ := h
    simp only [braceGo] at hmem
    have hN : i + (l :: rest).length = (i + 1) + rest.length := by
      rw [List.length_cons]
      omega
    rw [hN] at hf ⊢
    cases hname : nameOf (trimStr l) with
    | some fn =>
      rw [hname] at hmem
      cases cur0 with
      | none =>
        dsimp only at hmem
        refine ih (i + 1) _ ?_ f hmem
        exact ⟨hf, Nat.succ_le_succ (Nat.zero_le i), Nat.le.refl⟩
      | some ns =>
        obtain ⟨nm0, s0⟩ := ns
        dsimp only at hmem
        refine ih (i + 1) _ ?_ f hmem
        exact ⟨funcs_push_ok _ funcs0 nm0 s0 i hf hc.1 hc.2 (by omega),
               Nat.succ_le_succ (Nat.zero_le i), Nat.le.refl⟩
    | none =>
      rw [hname] at hmem
      cases cur0 with
      | none =>
        dsimp only at hmem
        refine ih (i + 1) _ ?_ f hmem
        exact ⟨hf, trivial⟩
      | some ns =>
        obtain ⟨nm0, s0⟩ := ns
        dsimp only at hmem
        split at hmem
        · refine ih (i + 1) _ ?_ f hmem
          exact ⟨funcs_push_ok _ funcs0 nm0 s0 (i + 1) hf hc.1 (Nat.le_succ_of_le hc.2) (by omega),
                 trivial⟩
        · refine ih (i + 1) _ ?_ f hmem
          exact ⟨hf, hc.1, Nat.le_succ_of_le hc.2⟩

theorem extract_python_spans (lines : List String) :
    ∀ f ∈ extract_python_functions lines, SpanOK lines.length f := by
  intro f hmem
  have hres := pyGo_spans lines 0 { funcs := [], current := none }
    ⟨by intro f h; exact absurd h (by simp), trivial⟩ f hmem
  simpa using hres

theorem extract_js_spans (lines : List String) :
    ∀ f ∈ extract_js_functions lines, SpanOK lines.length f := by
  intro f hmem
  have hres := braceGo_spans extract_js_function_name lines 0
    { funcs := [], current := none, brace_count := 0 }
    ⟨by intro f h; exact absurd h (by simp), trivial⟩ f hmem
  simpa using hres

theorem extract_c_style_spans (lines : List String) :
    ∀ f ∈ extract_c_style_functions lines, SpanOK lines.length f := by
  intro f hmem
  have hres := braceGo_spans extract_c_style_function_name lines 0
    { funcs := [], current := none, brace_count := 0 }
    ⟨by intro f h; exact absurd h (by simp), trivial⟩ f hmem
  simpa using hres

theorem splitNl_ne_nil (l : List Char) : splitNl l ≠ [] := by
  match l with
  | [] => simp [splitNl]
  | c :: rest =>
    rw [splitNl]
    split
    · simp
    · split <;> simp

theorem splitNl_singleton_empty (l : List Char) (h : splitNl l = [[]]) : l = [] := by
  match l with
  | [] => rfl
  | c :: rest =>
    rw [splitNl] at h
    by_cases hc : c = '\n'
    · rw [if_pos hc] at h
      have h2 : splitNl rest = [] := by
        injection h
      exact absurd h2 (splitNl_ne_nil rest)
    · rw [if_neg hc] at h
      cases hsp : splitNl rest with
      | nil =>
        rw [hsp] at h
        simp at h
      | cons x xs =>
        rw [hsp] at h
        simp at h

theorem rustLines_len_pos (code : String) (h : code ≠ "") :
    1 ≤ (rustLines code).length := by
  obtain ⟨d⟩ := code
  cases d with
  | nil => exact absurd rfl h
  | cons c rest =>
    unfold rustLines
    simp only []
    cases hlast : (splitNl (c :: rest)).getLast? with
    | none =>
      have hnil : splitNl (c :: rest) = [] := by
        cases hsp : splitNl (c :: rest) with
        | nil => rfl
        | cons x xs =>
          rw [hsp] at hlast
          simp [List.getLast?_eq_none_iff] at hlast
      exact absurd hnil (splitNl_ne_nil _)
    | some last =>
      cases last with
      | nil =>
        have hne : splitNl (c :: rest) ≠ [[]] := by
          intro hcontra
          have hempty := splitNl_singleton_empty (c :: rest) hcontra
          simp at hempty
        have hlen : 2 ≤ (splitNl (c :: rest)).length := by
          rcases hsp : splitNl (c :: rest) with _ | ⟨x, _ | ⟨y, xs⟩⟩
          · exact absurd hsp (splitNl_ne_nil _)
          · rw [hsp] at hlast
            simp [List.getLast?] at hlast
            rw [hsp, hlast] at hne
            exact absurd rfl hne
          · rw [List.length_cons, List.length_cons]
            omega
        simp only [List.length_map, List.length_dropLast]
        omega
      | cons x xs =>
        simp [List.length_append]

theorem extract_functions_spans (language code : String) (h : code ≠ "") :
    ∀ f ∈ extract_functions language code, SpanOK (rustLines code).length f := by
  intro f hmem
  have hlen := rustLines_len_pos code h
  simp only [extract_functions] at hmem
  split at hmem
  · next hbig =>
    have hef : f = create_function_info "main" 1 (Nat.min (rustLines code).length 1000) := by
      simpa using hmem
    subst hef
    have hmin : Nat.min (rustLines code).length 1000 = 1000 :=
      Nat.min_eq_right (by omega)
    refine ⟨Nat.le.refl, ?_, ?_⟩
    · show 1 ≤ Nat.min (rustLines code).length 1000
      rw [hmin]
      omega
    · show Nat.min (rustLines code).length 1000 ≤ (rustLines code).length
      exact Nat.min_le_left _ _
  · split at hmem
    · have hef : f = create_function_info "main" 1 (rustLines code).length := by
        simpa using hmem
      subst hef
      exact ⟨Nat.le.refl, hlen, Nat.le.refl⟩
    · revert hmem
      split <;> intro hmem <;>
        first
          | exact extract_python_spans _ f hmem
          | exact extract_js_spans _ f hmem
          | exact extract_c_style_spans _ f hmem

/-- C10: for every non-empty source, every span the extractor produces
satisfies `1 ≤ start_line ≤ end_line ≤ number of lines`, and the
out-of-range guard of `analyze_function` (`start_idx >= lines.len() ||
start_idx >= end_idx`) is false for it, so the "Unable to analyze function
body" branch is unreachable for extractor-produced spans. -/
theorem extractor_spans_within_bounds (language code : String) (h : code ≠ "") :
    ∀ f ∈ extract_functions language code,
      (1 ≤ f.start_line ∧ f.start_line ≤ f.end_line ∧
        f.end_line ≤ (rustLines code).length) ∧
      ¬(f.start_line - 1 ≥ (rustLines code).length ∨
        f.start_line - 1 ≥ Nat.min f.end_line (rustLines code).length) := by
  intro f hmem
  obtain ⟨h1, h2, h3⟩ := extract_functions_spans language code h f hmem
  refine ⟨⟨h1, h2, h3⟩, ?_⟩
  have hm : Nat.min f.end_line (rustLines code).length = f.end_line :=
    Nat.min_eq_left h3
  rw [hm]
  omega

/-- Witness for C10 at the Scenario A source. -/
theorem extractor_spans_within_bounds_witness :
    scenarioA ≠ "" ∧
    ∀ f ∈ extract_functions "python" scenarioA,
      (1 ≤ f.start_line ∧ f.start_line ≤ f.end_line ∧
        f.end_line ≤ (rustLines scenarioA).length) ∧
      ¬(f.start_line - 1 ≥ (rustLines scenarioA).length ∨
        f.start_line - 1 ≥ Nat.min f.end_line (rustLines scenarioA).length) :=
  ⟨by decide, extractor_spans_within_bounds "python" scenarioA (by decide)⟩

/- ### C9: report identity across builtin-table iteration orders -/

/-- The builtin-table entries whose name occurs in the function body — the
entries whose branch fires during the builtin scan. -/
def matchedBuiltins (t : List (String × Complexity)) (body : String) :
    List (String × Complexity) :=
  t.filter (fun bc => strContains body bc.1)

/-- The rationale string the builtin scan appends for one table entry. -/
def builtinDetail (bc : String × Complexity) : String :=
  "Built-in function \x27" ++ bc.1 ++ "\x27 detected"

theorem builtin_scan_closed (t : List (String × Complexity)) (body : String) :
    ∀ st : AnalState,
      builtin_scan t body st =
        { complexity := (matchedBuiltins t body).foldl (fun c bc => c.max bc.2) st.complexity,
          confidence := st.confidence,
          details := st.details ++ (matchedBuiltins t body).map builtinDetail } := by
  induction t with
  | nil =>
    intro st
    simp [builtin_scan, matchedBuiltins]
  | cons bc t ih =>
    intro st
    by_cases hm : strContains body bc.1 = true
    · have hstep : builtin_scan (bc :: t) body st =
          builtin_scan t body
            { st with complexity := st.complexity.max bc.2,
                      details := st.details ++ [builtinDetail bc] } := by
        simp [builtin_scan, List.foldl, hm, builtinDetail]
      rw [hstep, ih]
      simp [matchedBuiltins, List.filter_cons, hm, List.append_assoc]
    · have hstep : builtin_scan (bc :: t) body st = builtin_scan t body st := by
        simp [builtin_scan, List.foldl, hm]
      rw [hstep, ih]
      simp [matchedBuiltins, List.filter_cons, hm]

theorem cmax_right_comm : ∀ c x y : Complexity, (c.max x).max y = (c.max y).max x := by
  decide

theorem foldl_cmax_perm {l₁ l₂ : List Complexity} (hp : l₁.Perm l₂) :
    ∀ c, l₁.foldl Complexity.max c = l₂.foldl Complexity.max c := by
  induction hp with
  | nil => intro c; rfl
  | cons x _ ih =>
    intro c
    simp only [List.foldl]
    exact ih _
  | swap x y l =>
    intro c
    simp only [List.foldl]
    rw [cmax_right_comm]
  | trans _ _ ih1 ih2 =>
    intro c
    rw [ih1, ih2]

theorem foldl_max_snd (l : List (String × Complexity)) :
    ∀ c, l.foldl (fun c bc => c.max bc.2) c = (l.map Prod.snd).foldl Complexity.max c := by
  induction l with
  | nil => intro c; rfl
  | cons bc l ih =>
    intro c
    simp only [List.foldl, List.map]
    exact ih _

/-- Two running analysis states that agree except possibly in the order of
their rationale entries. -/
def AnalRel (s t : AnalState) : Prop :=
  s.complexity = t.complexity ∧ s.confidence = t.confidence ∧ s.details.Perm t.details

theorem loop_depth_step_rel (d r : Nat) (b : Bool) {s t : AnalState} (h : AnalRel s t) :
    AnalRel (loop_depth_step d r b s) (loop_depth_step d r b t) := by
  obtain ⟨h1, h2, h3⟩ := h
  match d with
  | 0 =>
    simp only [loop_depth_step]
    split
    · exact ⟨h1, h2, h3.append_right _⟩
    · exact ⟨h1, h2, h3⟩
  | 1 =>
    simp only [loop_depth_step]
    split
    · exact ⟨rfl, rfl, (h3.append_right _).append_right _⟩
    · exact ⟨by rw [h1], h2, h3.append_right _⟩
  | 2 =>
    exact ⟨by show s.complexity.max .Quadratic = t.complexity.max .Quadratic; rw [h1],
           rfl, h3.append_right _⟩
  | 3 =>
    exact ⟨by show s.complexity.max .Cubic = t.complexity.max .Cubic; rw [h1],
           rfl, h3.append_right _⟩
  | n + 4 =>
    exact ⟨by show s.complexity.max .Polynomial = t.complexity.max .Polynomial; rw [h1],
           rfl, h3.append_right _⟩

theorem recursion_step_rel (body fname : String) (r : Nat) {s t : AnalState}
    (h : AnalRel s t) :
    AnalRel (recursion_step body fname r s) (recursion_step body fname r t) := by
  obtain ⟨h1, h2, h3⟩ := h
  unfold recursion_step
  split
  · split
    · exact ⟨by rw [h1], rfl, h3.append_right _⟩
    · split
      · exact ⟨by rw [h1], rfl, h3.append_right _⟩
      · split
        · split
          · exact ⟨by rw [h1], rfl, h3.append_right _⟩
          · exact ⟨by rw [h1], rfl, h3.append_right _⟩
        · exact ⟨by rw [h1], rfl, h3.append_right _⟩
  · exact ⟨h1, h2, h3⟩

theorem dp_step_rel (b : Bool) {s t : AnalState} (h : AnalRel s t) :
    AnalRel (dp_step b s) (dp_step b t) := by
  obtain ⟨h1, h2, h3⟩ := h
  unfold dp_step
  split
  · exact ⟨h1, by rw [h2], h3.append_right _⟩
  · exact ⟨h1, h2, h3⟩

theorem sorting_step_rel (b : Bool) {s t : AnalState} (h : AnalRel s t) :
    AnalRel (sorting_step b s) (sorting_step b t) := by
  obtain ⟨h1, h2, h3⟩ := h
  unfold sorting_step
  split
  · exact ⟨by rw [h1], h2, h3.append_right _⟩
  · exact ⟨h1, h2, h3⟩

theorem factorial_step_rel (b : Bool) {s t : AnalState} (h : AnalRel s t) :
    AnalRel (factorial_step b s) (factorial_step b t) := by
  obtain ⟨h1, h2, h3⟩ := h
  unfold factorial_step
  split
  · exact ⟨by rw [h1], rfl, h3.append_right _⟩
  · exact ⟨h1, h2, h3⟩

/-- Two per-function results that agree except possibly in the order of their
rationale entries. -/
def FunRel (a b : ComplexityResult) : Prop :=
  a.complexity = b.complexity ∧ a.confidence = b.confidence ∧ a.details.Perm b.details ∧
  a.line_start = b.line_start ∧ a.line_end = b.line_end

theorem analyze_function_perm (t₁ t₂ : List (String × Complexity)) (hp : t₁.Perm t₂)
    (language : String) (func : FunctionInfo) (code : String) :
    FunRel (analyze_function ⟨language, t₁⟩ func code)
           (analyze_function ⟨language, t₂⟩ func code) := by
  unfold analyze_function
  dsimp only
  by_cases hg : (func.start_line - 1 ≥ (rustLines code).length ∨
      func.start_line - 1 ≥ Nat.min func.end_line (rustLines code).length)
  · rw [if_pos hg, if_pos hg]
    exact ⟨rfl, rfl, List.Perm.refl _, rfl, rfl⟩
  · rw [if_neg hg, if_neg hg]
    set body := joinNl (((rustLines code).drop (func.start_line - 1)).take
      (Nat.min func.end_line (rustLines code).length - (func.start_line - 1))) with hbody
    have hmperm : (matchedBuiltins t₁ body).Perm (matchedBuiltins t₂ body) :=
      hp.filter _
    have hscan : AnalRel
        (builtin_scan t₁ body { complexity := .Constant, confidence := conf09, details := [] })
        (builtin_scan t₂ body { complexity := .Constant, confidence := conf09, details := [] }) := by
      rw [builtin_scan_closed, builtin_scan_closed]
      refine ⟨?_, rfl, ?_⟩
      · show (matchedBuiltins t₁ body).foldl
            (fun (c : Complexity) (bc : String × Complexity) => c.max bc.2) .Constant =
          (matchedBuiltins t₂ body).foldl
            (fun (c : Complexity) (bc : String × Complexity) => c.max bc.2) .Constant
        rw [foldl_max_snd, foldl_max_snd]
        exact foldl_cmax_perm (hmperm.map Prod.snd) _
      · exact List.Perm.append_left _ (hmperm.map builtinDetail)
    have hsteps : AnalRel
        (factorial_step (detect_factorial_pattern body)
          (sorting_step (detect_sorting body)
            (dp_step (detect_dynamic_programming body)
              (recursion_step body func.name (count_function_calls body func.name)
                (loop_depth_step (calculate_loop_depth language body)
                  (count_function_calls body func.name) (detect_binary_search body)
                  (builtin_scan t₁ body
                    { complexity := .Constant, confidence := conf09, details := [] }))))))
        (factorial_step (detect_factorial_pattern body)
          (sorting_step (detect_sorting body)
            (dp_step (detect_dynamic_programming body)
              (recursion_step body func.name (count_function_calls body func.name)
                (loop_depth_step (calculate_loop_depth language body)
                  (count_function_calls body func.name) (detect_binary_search body)
                  (builtin_scan t₂ body
                    { complexity := .Constant, confidence := conf09, details := [] })))))) :=
      factorial_step_rel _ (sorting_step_rel _ (dp_step_rel _ (recursion_step_rel _ _ _
        (loop_depth_step_rel _ _ _ hscan))))
    exact ⟨congrArg Complexity.to_string hsteps.1, hsteps.2.1, hsteps.2.2, rfl, rfl⟩

theorem forall₂_map_complexity {R : FunctionAnalysis → FunctionAnalysis → Prop}
    (hR : ∀ a b, R a b → a.complexity = b.complexity)
    {l₁ l₂ : List FunctionAnalysis} (h : List.Forall₂ R l₁ l₂) :
    l₁.map FunctionAnalysis.complexity = l₂.map FunctionAnalysis.complexity := by
  induction h with
  | nil => rfl
  | cons hab _ ih =>
    simp only [List.map]
    rw [hR _ _ hab, ih]

theorem get_overall_congr (fas₁ fas₂ : List FunctionAnalysis)
    (h : fas₁.map FunctionAnalysis.complexity = fas₂.map FunctionAnalysis.complexity) :
    get_overall_complexity fas₁ = get_overall_complexity fas₂ := by
  unfold get_overall_complexity
  have hemp : fas₁.isEmpty = fas₂.isEmpty := by
    cases fas₁ <;> cases fas₂ <;> simp_all
  rw [hemp]
  have hpred : (fun c => fas₁.any (fun f => f.complexity == c)) =
      fun c => fas₂.any (fun f => f.complexity == c) := by
    funext c
    rw [any_map_complexity, any_map_complexity, h]
  rw [hpred]

/-- C9 amended: for any two iteration orders of the same builtin table (the
source iterates a `HashMap`, whose order is unspecified), the two reports
agree on the overall class, the language, the warnings, and component-wise on
every function's name, class, confidence and line range, with rationale lists
equal up to permutation. -/
theorem analyze_agrees_up_to_builtin_order (code language : String)
    (t₁ t₂ : List (String × Complexity)) (hp : t₁.Perm t₂) :
    (ComplexityAnalyzer.analyze ⟨language, t₁⟩ code).overall =
      (ComplexityAnalyzer.analyze ⟨language, t₂⟩ code).overall ∧
    (ComplexityAnalyzer.analyze ⟨language, t₁⟩ code).language =
      (ComplexityAnalyzer.analyze ⟨language, t₂⟩ code).language ∧
    (ComplexityAnalyzer.analyze ⟨language, t₁⟩ code).warnings =
      (ComplexityAnalyzer.analyze ⟨language, t₂⟩ code).warnings ∧
    List.Forall₂ (fun f g =>
        f.function = g.function ∧ f.complexity = g.complexity ∧
        f.confidence = g.confidence ∧ f.details.Perm g.details ∧
        f.line_start = g.line_start ∧ f.line_end = g.line_end)
      (ComplexityAnalyzer.analyze ⟨language, t₁⟩ code).functions
      (ComplexityAnalyzer.analyze ⟨language, t₂⟩ code).functions := by
  unfold ComplexityAnalyzer.analyze
  dsimp only
  by_cases hbig : rustLen code > 100000
  · rw [if_pos hbig, if_pos hbig]
    exact ⟨rfl, rfl, rfl, List.Forall₂.nil⟩
  · rw [if_neg hbig, if_neg hbig]
    have hmap : ∀ fs : List FunctionInfo,
        List.Forall₂ (fun f g =>
            f.function = g.function ∧ f.complexity = g.complexity ∧
            f.confidence = g.confidence ∧ f.details.Perm g.details ∧
            f.line_start = g.line_start ∧ f.line_end = g.line_end)
          (fs.map (fun func =>
            ({ function := func.name,
               complexity := (analyze_function ⟨language, t₁⟩ func code).complexity,
               confidence := (analyze_function ⟨language, t₁⟩ func code).confidence,
               details := (analyze_function ⟨language, t₁⟩ func code).details,
               line_start := (analyze_function ⟨language, t₁⟩ func code).line_start,
               line_end := (analyze_function ⟨language, t₁⟩ func code).line_end } :
              FunctionAnalysis)))
          (fs.map (fun func =>
            ({ function := func.name,
               complexity := (analyze_function ⟨language, t₂⟩ func code).complexity,
               confidence := (analyze_function ⟨language, t₂⟩ func code).confidence,
               details := (analyze_function ⟨language, t₂⟩ func code).details,
               line_start := (analyze_function ⟨language, t₂⟩ func code).line_start,
               line_end := (analyze_function ⟨language, t₂⟩ func code).line_end } :
              FunctionAnalysis))) := by
      intro fs
      induction fs with
      | nil => exact List.Forall₂.nil
      | cons x xs ih =>
        refine List.Forall₂.cons ?_ ih
        have hfr := analyze_function_perm t₁ t₂ hp language x code
        exact ⟨rfl, hfr.1, hfr.2.1, hfr.2.2.1, hfr.2.2.2.1, hfr.2.2.2.2⟩
    refine ⟨?_, rfl, rfl, hmap _⟩
    exact get_overall_congr _ _
      (forall₂_map_complexity (fun a b hab => hab.2.1) (hmap (extract_functions language code)))

/-- Witness for C9's amended theorem: the JavaScript builtin table against its
reversal, on a source mentioning both `sort` and `map`. -/
theorem analyze_agrees_up_to_builtin_order_witness :
    (builtin_functions_for "javascript").Perm (builtin_functions_for "javascript").reverse ∧
    ((ComplexityAnalyzer.analyze ⟨"javascript", builtin_functions_for "javascript"⟩
        twoBuiltinSrc).overall =
      (ComplexityAnalyzer.analyze
        ⟨"javascript", (builtin_functions_for "javascript").reverse⟩ twoBuiltinSrc).overall ∧
     (ComplexityAnalyzer.analyze ⟨"javascript", builtin_functions_for "javascript"⟩
        twoBuiltinSrc).language =
      (ComplexityAnalyzer.analyze
        ⟨"javascript", (builtin_functions_for "javascript").reverse⟩ twoBuiltinSrc).language ∧
     (ComplexityAnalyzer.analyze ⟨"javascript", builtin_functions_for "javascript"⟩
        twoBuiltinSrc).warnings =
      (ComplexityAnalyzer.analyze
        ⟨"javascript", (builtin_functions_for "javascript").reverse⟩ twoBuiltinSrc).warnings ∧
     List.Forall₂ (fun f g =>
        f.function = g.function ∧ f.complexity = g.complexity ∧
        f.confidence = g.confidence ∧ f.details.Perm g.details ∧
        f.line_start = g.line_start ∧ f.line_end = g.line_end)
      (ComplexityAnalyzer.analyze ⟨"javascript", builtin_functions_for "javascript"⟩
        twoBuiltinSrc).functions
      (ComplexityAnalyzer.analyze
        ⟨"javascript", (builtin_functions_for "javascript").reverse⟩ twoBuiltinSrc).functions) :=
  ⟨(List.reverse_perm _).symm,
   analyze_agrees_up_to_builtin_order twoBuiltinSrc "javascript" _ _
     ((List.reverse_perm _).symm)⟩

/-- C9 counterexample: the two iteration orders above are permutations of the
same builtin table, yet the two reports are not byte-identical (the two
builtin rationale entries appear in different orders), so byte-identical
output across calls is not guaranteed by the code. -/
theorem analyze_builtin_order_changes_report :
    (builtin_functions_for "javascript").Perm (builtin_functions_for "javascript").reverse ∧
    (decide
      (ComplexityAnalyzer.analyze ⟨"javascript", builtin_functions_for "javascript"⟩
          twoBuiltinSrc =
        ComplexityAnalyzer.analyze
          ⟨"javascript", (builtin_functions_for "javascript").reverse⟩ twoBuiltinSrc)) =
      false :=
  ⟨(List.reverse_perm _).symm, by decide⟩

/- ### C6: input validation at the entry point -/

/-- C6: the entry point produces a report exactly when the source text is
non-empty and at most 500000 bytes long; a 600000-character input and the
empty string are rejected with the source's two error messages, and a
500000-character input still produces a report. -/
theorem analyze_complexity_input_validation :
    (∀ code language : String,
        producesReport (analyze_complexity code language) =
          (!(code == "") && decide (rustLen code ≤ 500000))) ∧
    analyze_complexity (repChar 600000 'a') "python" = .error "Code too large to analyze" ∧
    analyze_complexity "" "python" = .error "Empty code provided" ∧
    producesReport (analyze_complexity (repChar 500000 'a') "python") = true := by
  refine ⟨?_, ?_, ?_, ?_⟩
  · intro code language
    unfold analyze_complexity
    by_cases h1 : code = ""
    · subst h1; rfl
    · rw [if_neg h1]
      by_cases h2 : rustLen code > 500000
      · rw [if_pos h2]
        simp [producesReport, h1, decide_eq_false (by omega : ¬ rustLen code ≤ 500000)]
      · rw [if_neg h2]
        simp [producesReport, h1, decide_eq_true (by omega : rustLen code ≤ 500000)]
  · unfold analyze_complexity
    rw [if_neg (repChar_ne_empty 600000 (by omega)),
        if_pos (by rw [rustLen_repChar]; omega : rustLen (repChar 600000 'a') > 500000)]
  · rfl
  · unfold analyze_complexity
    rw [if_neg (repChar_ne_empty 500000 (by omega)),
        if_neg (by rw [rustLen_repChar]; omega : ¬ rustLen (repChar 500000 'a') > 500000)]
    rfl

/- ### C7: the soft size ceiling -/

/-- C7: every accepted input longer than 100000 bytes skips analysis and
yields the degraded report — overall `O(1)`, no function reports, and exactly
the one oversize warning. -/
theorem analyze_oversize_degraded (code language : String)
    (h1 : rustLen code > 100000) (h2 : rustLen code ≤ 500000) (h3 : code ≠ "") :
    analyze_complexity code language =
      .ok { overall := "O(1)", functions := [], language := language,
            warnings := ["Code too large to analyze safely"] } := by
  unfold analyze_complexity ComplexityAnalyzer.analyze ComplexityAnalyzer.new
  rw [if_neg h3, if_neg (by omega : ¬ rustLen code > 500000), if_pos h1]

/-- Witness for C7 at the 150000-character input named by the spec. -/
theorem analyze_oversize_degraded_witness :
    rustLen (repChar 150000 'a') > 100000 ∧
    rustLen (repChar 150000 'a') ≤ 500000 ∧
    repChar 150000 'a' ≠ "" ∧
    analyze_complexity (repChar 150000 'a') "javascript" =
      .ok { overall := "O(1)", functions := [], language := "javascript",
            warnings := ["Code too large to analyze safely"] } :=
  ⟨by rw [rustLen_repChar]; omega, by rw [rustLen_repChar]; omega,
   repChar_ne_empty 150000 (by omega),
   analyze_oversize_degraded (repChar 150000 'a') "javascript"
     (by rw [rustLen_repChar]; omega) (by rw [rustLen_repChar]; omega)
     (repChar_ne_empty 150000 (by omega))⟩

/- ### C8: the fallback span and the dead no-functions warning -/

/-- C8: on a source with no recognizable function construct the report does
contain the synthetic "main" span covering the whole two-line input, but its
warning list is empty: `analyze` tests `functions.isEmpty` only after
`extract_functions` has already inserted the fallback span, so the
no-functions warning is never attached. -/
theorem bare_source_main_span_no_warning :
    analyze_complexity bareSrc "python" =
      .ok { overall := "O(1)",
            functions := [{ function := "main", complexity := "O(1)", confidence := conf09,
                            details := ["No loops or recursion detected"],
                            line_start := 1, line_end := 2 }],
            language := "python", warnings := [] } := by
  rfl

end BigO
